import Mathlib

/-!
Verification of the LQAP (Lightweight Quantum-resistant Authentication Protocol)
repository against its natural-language specification.

The repository is Python; this file is a shallow embedding of the parts of the
code the claims are about:

* `crypto_components/xmss.py`        — the XMSS signature scheme stub
* `lqap_protocol/protocol.py`        — CertificateAuthority and LQAPProtocol
* `entity_models/blockchain.py`      — ConsortiumBlockchain
* `federated_learning/hierarchical_fl.py` and
  `federated_learning/anomaly_detection.py` — the federated anomaly model

Conventions of the embedding:

* Python `float` values are modelled as exact rationals `ℚ` (wall-clock
  `time.time()` readings, thresholds, scores, power levels).  Every operation
  that reads the clock takes the current time `now : ℚ` as an explicit
  argument; every operation that draws randomness (`os.urandom`, `uuid`,
  `random.random`) takes the drawn value as an explicit argument.
* SHA-256 and other hash functions are modelled as explicit function
  parameters: the theorems hold for every choice of hash function.
* Python `dict`s keyed by strings are modelled as association lists with
  distinct keys (`dictLookup` / `dictInsert` / `dictErase` below).
* A Python method that mutates `self` becomes a Lean function from the old
  state to the new state paired with the returned value.
-/

/-- Lookup in an association list modelling a Python `dict` (`d[k]` / `k in d`). -/
def dictLookup {α : Type} (l : List (String × α)) (k : String) : Option α :=
  match l with
  | [] => none
  | (k', v) :: rest => if k' = k then some v else dictLookup rest k

/-- Assignment `d[k] = v` on a Python `dict`: replace the binding if the key is
present, otherwise append it. -/
def dictInsert {α : Type} (l : List (String × α)) (k : String) (v : α) :
    List (String × α) :=
  match l with
  | [] => [(k, v)]
  | (k', v') :: rest =>
      if k' = k then (k, v) :: rest else (k', v') :: dictInsert rest k v

/-- Deletion `del d[k]` on a Python `dict`: remove the (unique) binding. -/
def dictErase {α : Type} (l : List (String × α)) (k : String) :
    List (String × α) :=
  match l with
  | [] => []
  | (k', v') :: rest => if k' = k then rest else (k', v') :: dictErase rest k

/-- Keys of an association list; a faithful image of a Python `dict` has
`Nodup` keys. -/
def dictKeys {α : Type} (l : List (String × α)) : List String :=
  l.map Prod.fst

theorem dictKeys_cons {α : Type} (p : String × α) (tl : List (String × α)) :
    dictKeys (p :: tl) = p.1 :: dictKeys tl := rfl

theorem dictLookup_none_of_not_mem {α : Type} :
    ∀ (l : List (String × α)) (k : String),
      k ∉ dictKeys l → dictLookup l k = none
  | [], _, _ => rfl
  | (k', _) :: tl, k, h => by
      rw [dictKeys_cons, List.mem_cons] at h
      push_neg at h
      have hne : k' ≠ k := fun e => h.1 e.symm
      simp only [dictLookup, if_neg hne]
      exact dictLookup_none_of_not_mem tl k h.2

theorem dictLookup_dictErase_self {α : Type} :
    ∀ (l : List (String × α)) (k : String), (dictKeys l).Nodup →
      dictLookup (dictErase l k) k = none
  | [], _, _ => rfl
  | (k', _) :: tl, k, hnd => by
      rw [dictKeys_cons, List.nodup_cons] at hnd
      by_cases hk : k' = k
      · simp only [dictErase, if_pos hk]
        exact dictLookup_none_of_not_mem tl k (hk ▸ hnd.1)
      · simp only [dictErase, if_neg hk, dictLookup, if_neg hk]
        exact dictLookup_dictErase_self tl k hnd.2

/-! ## `crypto_components/xmss.py` — the XMSS signature scheme

`XMSS.__init__` fixes parameters `n=32, w=16, h=10, d=2`; only `h` plays any
role in the specification (key capacity `2^h`).  Byte strings (the seed, the
message) are modelled as `List Nat`; SHA-256 over the concatenation
`seed + str(index) + message` is modelled as an arbitrary function `H` of the
three components. -/

/-- `private_key = {'seed': seed, 'index': index}` of `XMSS.key_gen`. -/
structure XMSSPrivateKey where
  seed : List Nat
  index : Nat
deriving DecidableEq

/-- `XMSS.key_gen`: the random seed drawn by `os.urandom` is an explicit
argument, and the public key is `sha256(seed)` for the modelled hash `pkHash`. -/
def xmssKeyGen (pkHash : List Nat → Nat) (seed : List Nat) :
    Nat × XMSSPrivateKey :=
  (pkHash seed, { seed := seed, index := 0 })

/-- `XMSS.sign`: signature is `sha256(seed + str(index) + message)` (modelled
as `H seed index message`), and the stored index is incremented.  The code has
no key-exhaustion check of any kind: it signs at every index. -/
def xmssSign (H : List Nat → Nat → List Nat → Nat) (key : XMSSPrivateKey)
    (message : List Nat) : Nat × XMSSPrivateKey :=
  (H key.seed key.index message, { key with index := key.index + 1 })

/-- `XMSS.verify`: the code returns `True` unconditionally ("For this
simplified version, we'll just return True"). -/
def xmssVerify (_message : List Nat) (_signature : Nat) (_publicKey : Nat) :
    Bool :=
  true

/-- Modelled from the spec (for comparison with `xmssSign`): `sign` as §4.1
describes it, failing (`none`, the `KeyExhausted` error) once the index has
reached `2^h`, and otherwise behaving as the code does. -/
def xmssSignSpec (H : List Nat → Nat → List Nat → Nat) (h : Nat)
    (key : XMSSPrivateKey) (message : List Nat) :
    Option (Nat × XMSSPrivateKey) :=
  if key.index < 2 ^ h then some (xmssSign H key message) else none

/-- A concrete stand-in hash used only to instantiate the abstract hash
parameters in closed statements. -/
def sampleHash (seed : List Nat) (index : Nat) (message : List Nat) : Nat :=
  seed.sum + index + message.sum

/-- C1: `XMSS.verify` accepts every (message, signature, public key) triple —
in particular a message different from the one that was signed, an unrelated
public key, and a signature from any index all verify as `true`.  The claim
(verification succeeds iff the triple matches exactly) is the documented
intent, and the code, a constant-`true` stub, contradicts it. -/
theorem c1_verify_stub_accepts_any_triple :
    (∀ (m : List Nat) (s pk : Nat), xmssVerify m s pk = true)
    ∧ xmssVerify [9, 9] (xmssSign sampleHash ⟨[0], 0⟩ [1, 2, 3]).1 77 = true
    ∧ ([9, 9] : List Nat) ≠ [1, 2, 3] := by
  refine ⟨fun m s pk => rfl, rfl, by decide⟩

/-- C2 counterexample: at index `2^h = 2^10 = 1024` the specified `sign` fails
with `KeyExhausted`, but the code's `sign` happily returns a signature and
moves the index to 1025 — the capacity check does not exist in the code. -/
theorem c2_sign_at_capacity_counterexample :
    xmssSignSpec sampleHash 10 ⟨[0], 1024⟩ [1] = none
    ∧ (xmssSign sampleHash ⟨[0], 1024⟩ [1]).2.index = 1025 := by
  constructor
  · simp [xmssSignSpec]
  · rfl

/-- C2 amended: `sign` never fails: for every key — including every key whose
index has reached the tree-height capacity `2^h` — it returns the
deterministic signature over seed, current index and message, keeps the seed,
and strictly increases the index by exactly one. -/
theorem c2_sign_always_signs_and_increments
    (H : List Nat → Nat → List Nat → Nat) (key : XMSSPrivateKey)
    (message : List Nat) :
    (xmssSign H key message).1 = H key.seed key.index message
    ∧ (xmssSign H key message).2.seed = key.seed
    ∧ key.index < (xmssSign H key message).2.index
    ∧ (xmssSign H key message).2.index = key.index + 1 := by
  exact ⟨rfl, rfl, Nat.lt_succ_self _, rfl⟩

/-! ## `lqap_protocol/protocol.py` — CertificateAuthority

Certificate data is the dict built by `issue_certificate`; the hex/str
conversions are representation-level only and are not modelled. -/

/-- The `cert_data` dict of `CertificateAuthority.issue_certificate`. -/
structure CertData where
  subject_id : String
  subject_public_key : Nat
  issuer_id : String
  issued_at : ℚ
  expiry : ℚ
deriving DecidableEq

/-- A certificate: `{'data': cert_data, 'signature': signature}`. -/
structure Certificate where
  data : CertData
  signature : Nat
deriving DecidableEq

/-- CertificateAuthority state: its id, XMSS key pair and the
`issued_certificates` dict.  There is no revocation set in the code. -/
structure CAState where
  id : String
  public_key : Nat
  private_key : XMSSPrivateKey
  issued_certificates : List (String × Certificate)
deriving DecidableEq

/-- `CertificateAuthority.issue_certificate`: build the certificate data
(defaulting expiry to `now + 86400`), sign `str(cert_data)` (serialization
modelled by `enc`) with the CA's XMSS key, store by subject id. -/
def issueCertificate (H : List Nat → Nat → List Nat → Nat)
    (enc : CertData → List Nat) (ca : CAState) (subjectId : String)
    (subjectPk : Nat) (expiry : Option ℚ) (now : ℚ) : CAState × Certificate :=
  let certData : CertData :=
    { subject_id := subjectId
      subject_public_key := subjectPk
      issuer_id := ca.id
      issued_at := now
      expiry := expiry.getD (now + 86400) }
  let signed := xmssSign H ca.private_key (enc certData)
  let certificate : Certificate := { data := certData, signature := signed.1 }
  ({ ca with
      private_key := signed.2
      issued_certificates :=
        dictInsert ca.issued_certificates subjectId certificate },
    certificate)

/-- `CertificateAuthority.verify_certificate`: checks expiry and then — the
signature check being "simplified for demo" — accepts unconditionally. -/
def verifyCertificate (certificate : Certificate) (now : ℚ) : Bool × String :=
  if certificate.data.expiry < now then (false, "Certificate expired")
  else (true, "Certificate valid")

/-- `CertificateAuthority.revoke_certificate`: if the subject has a stored
certificate, delete it (`del self.issued_certificates[subject_id]`) and return
`true`; otherwise return `false`. -/
def revokeCertificate (ca : CAState) (subjectId : String) : CAState × Bool :=
  if (dictLookup ca.issued_certificates subjectId).isSome then
    ({ ca with
        issued_certificates := dictErase ca.issued_certificates subjectId },
      true)
  else (ca, false)

/-- C6 counterexample: two certificates over the same data with different
signatures — so at most one of them can be the CA's genuine signature, the
other is forged — are both accepted by `verify_certificate` while unexpired.
The claim (forged unexpired certificates are rejected via the delegated
signature check) is false: no signature check happens at all. -/
theorem c6_forged_certificate_accepted :
    verifyCertificate ⟨⟨"ev-1", 5, "CA-1", 0, 10⟩, 111⟩ 1
        = (true, "Certificate valid")
    ∧ verifyCertificate ⟨⟨"ev-1", 5, "CA-1", 0, 10⟩, 222⟩ 1
        = (true, "Certificate valid")
    ∧ (111 : Nat) ≠ 222 := by
  refine ⟨by norm_num [verifyCertificate], by norm_num [verifyCertificate],
    by decide⟩

/-- C6 amended: `verify_certificate` checks expiry first and returns
`(false, "Certificate expired")` for a certificate past expiry; every
unexpired certificate is accepted as `(true, "Certificate valid")` with no
signature check — the outcome is independent of the stored signature, so a
forged unexpired certificate is not rejected. -/
theorem c6_verify_certificate_amended (certificate : Certificate) (now : ℚ) :
    ((verifyCertificate certificate now).1 = true
        ↔ ¬ certificate.data.expiry < now)
    ∧ (certificate.data.expiry < now →
        verifyCertificate certificate now = (false, "Certificate expired"))
    ∧ (∀ s : Nat,
        verifyCertificate ⟨certificate.data, s⟩ now
          = verifyCertificate certificate now) := by
  refine ⟨?_, ?_, ?_⟩
  · by_cases h : certificate.data.expiry < now <;> simp [verifyCertificate, h]
  · intro h; simp [verifyCertificate, h]
  · intro s; by_cases h : certificate.data.expiry < now <;>
      simp [verifyCertificate, h]

/-- C6 amended, witnessed at concrete inputs: an expired certificate
(expiry 10, clock 20) is rejected as expired, and replacing the signature of
an unexpired certificate does not change the verdict. -/
theorem c6_verify_certificate_amended_witness :
    verifyCertificate ⟨⟨"ev-1", 5, "CA-1", 0, 10⟩, 111⟩ 20
        = (false, "Certificate expired")
    ∧ verifyCertificate ⟨⟨"ev-1", 5, "CA-1", 0, 10⟩, 333⟩ 1
        = verifyCertificate ⟨⟨"ev-1", 5, "CA-1", 0, 10⟩, 111⟩ 1 := by
  refine ⟨(c6_verify_certificate_amended ⟨⟨"ev-1", 5, "CA-1", 0, 10⟩, 111⟩ 20).2.1
      (by norm_num),
    (c6_verify_certificate_amended ⟨⟨"ev-1", 5, "CA-1", 0, 10⟩, 111⟩ 1).2.2 333⟩

/-- C7 counterexample: a CA that issued exactly one certificate, for subject
"s".  Revoking "s" deletes the record outright — the issued-certificates store
becomes empty, exactly the store of a CA that never issued anything — so
revocation is a deletion and "revoked" is indistinguishable from
"never issued", contradicting the claim of an explicit revoked set. -/
theorem c7_revoke_deletes_counterexample :
    (revokeCertificate
        ⟨"CA-1", 7, ⟨[0], 1⟩, [("s", ⟨⟨"s", 5, "CA-1", 0, 10⟩, 42⟩)]⟩
        "s").1.issued_certificates = []
    ∧ (revokeCertificate
        ⟨"CA-1", 7, ⟨[0], 1⟩, [("s", ⟨⟨"s", 5, "CA-1", 0, 10⟩, 42⟩)]⟩
        "s").2 = true := by
  constructor
  · simp [revokeCertificate, dictLookup, dictErase]
  · simp [revokeCertificate, dictLookup]

/-- C7 amended: `revoke_certificate` deletes the subject's record from
`issued_certificates` (returning `true` exactly when a record existed); after
the call the subject's lookup is `none`, the same as for a subject that was
never issued a certificate, and no revocation marker is kept anywhere in the
CA state. -/
theorem c7_revoke_amended (ca : CAState) (subjectId : String)
    (hnd : (dictKeys ca.issued_certificates).Nodup) :
    dictLookup (revokeCertificate ca subjectId).1.issued_certificates subjectId
        = none
    ∧ (revokeCertificate ca subjectId).2
        = (dictLookup ca.issued_certificates subjectId).isSome
    ∧ (revokeCertificate ca subjectId).1.id = ca.id
    ∧ (revokeCertificate ca subjectId).1.private_key = ca.private_key := by
  by_cases h : (dictLookup ca.issued_certificates subjectId).isSome
  · refine ⟨?_, by simp [revokeCertificate, h], by simp [revokeCertificate, h],
      by simp [revokeCertificate, h]⟩
    simp only [revokeCertificate, h, if_true]
    exact dictLookup_dictErase_self ca.issued_certificates subjectId hnd
  · have hn : dictLookup ca.issued_certificates subjectId = none := by
      cases hl : dictLookup ca.issued_certificates subjectId with
      | none => rfl
      | some v => rw [hl] at h; simp at h
    refine ⟨?_, by simp [revokeCertificate, h, hn], by simp [revokeCertificate, h],
      by simp [revokeCertificate, h]⟩
    simp [revokeCertificate, h, hn]

/-- C7 amended, witnessed on the one-certificate CA: after revoking "s" its
lookup is `none` and the call reported `true`. -/
theorem c7_revoke_amended_witness :
    dictLookup (revokeCertificate
        ⟨"CA-1", 7, ⟨[0], 1⟩, [("s", ⟨⟨"s", 5, "CA-1", 0, 10⟩, 42⟩)]⟩
        "s").1.issued_certificates "s" = none
    ∧ (revokeCertificate
        ⟨"CA-1", 7, ⟨[0], 1⟩, [("s", ⟨⟨"s", 5, "CA-1", 0, 10⟩, 42⟩)]⟩
        "s").2 = (dictLookup
          ([("s", (⟨⟨"s", 5, "CA-1", 0, 10⟩, 42⟩ : Certificate))]) "s").isSome := by
  have h := c7_revoke_amended
    ⟨"CA-1", 7, ⟨[0], 1⟩, [("s", ⟨⟨"s", 5, "CA-1", 0, 10⟩, 42⟩)]⟩ "s"
    (by simp [dictKeys])
  exact ⟨h.1, h.2.1⟩

/-! ## `entity_models/blockchain.py` — ConsortiumBlockchain

Transaction payloads are the dicts the protocol feeds into
`add_transaction`; `generic` stands for any other payload.  The block hash —
SHA-256 of the canonical JSON serialization of the block body — is modelled as
an arbitrary function `H : BlockBody → Nat` of the body; the genesis
`previous_hash` `'0' * 64` is modelled as the hash value `0`.  The Python
`current_block`'s `timestamp` and `transactions` fields are always overwritten
by `mine_block` before they are read, so only its `index`, `previous_hash` and
`nonce` fields are part of the state. -/

/-- The transaction dicts the repository appends to the ledger. -/
inductive TxPayload where
  | registration (entity_type entity_id : String) (ts : ℚ)
  | credential_issuance (ev_id en_id credential_id : String) (ts : ℚ)
  | authentication (mode ev_id cs_id : String) (en_id : Option String)
      (session_id : String) (ts : ℚ)
  | authentication_failure (mode reason ev_id cs_id en_id : String)
      (anomaly_score : ℚ) (ts : ℚ)
  | session_end (session_id ev_id cs_id : String) (duration : ℚ) (ts : ℚ)
  | fl_model_update (en_id model_id model_hash : String) (ts : ℚ)
  | generic (tag : String) (ts : ℚ)
deriving DecidableEq

/-- A pending-pool entry: `{'data': transaction, 'timestamp': time.time()}`. -/
structure PendingTx where
  data : TxPayload
  timestamp : ℚ
deriving DecidableEq

/-- The block body — the block dict without its `hash` field. -/
structure BlockBody where
  index : Nat
  timestamp : ℚ
  transactions : List PendingTx
  previous_hash : Nat
  nonce : Nat
deriving DecidableEq

/-- A sealed block: body plus its stored hash. -/
structure Block where
  body : BlockBody
  hash : Nat
deriving DecidableEq

/-- `ConsortiumBlockchain` state. -/
structure BCState where
  blocks : List Block
  current_index : Nat
  current_previous_hash : Nat
  current_nonce : Nat
  pending_transactions : List PendingTx
  transaction_limit : Nat
deriving DecidableEq

/-- `ConsortiumBlockchain.__init__`: empty chain, genesis previous hash,
batch limit 10. -/
def initialChain : BCState :=
  { blocks := []
    current_index := 0
    current_previous_hash := 0
    current_nonce := 0
    pending_transactions := []
    transaction_limit := 10 }

/-- `ConsortiumBlockchain.mine_block`: a no-op returning `none` (Python
`False`) on an empty pending pool; otherwise seal the pending transactions
into a block stamped `now`, append it, chain the next block to its hash, and
clear the pending pool, returning the new chain length. -/
def mineBlock (H : BlockBody → Nat) (s : BCState) (now : ℚ) :
    BCState × Option Nat :=
  if s.pending_transactions = [] then (s, none)
  else
    let body : BlockBody :=
      { index := s.current_index
        timestamp := now
        transactions := s.pending_transactions
        previous_hash := s.current_previous_hash
        nonce := s.current_nonce }
    let blockHash := H body
    let blocks' := s.blocks ++ [{ body := body, hash := blockHash }]
    ({ blocks := blocks'
       current_index := blocks'.length
       current_previous_hash := blockHash
       current_nonce := 0
       pending_transactions := []
       transaction_limit := s.transaction_limit },
      some blocks'.length)

/-- `ConsortiumBlockchain.add_transaction`: enqueue the payload with the
current time (payloads built by the protocol always carry their own
`timestamp` field, so the defaulting branch never alters them), then mine
automatically once the pending count has reached the batch limit; returns the
resulting pending count. -/
def addTransaction (H : BlockBody → Nat) (s : BCState) (tx : TxPayload)
    (now : ℚ) : BCState × Nat :=
  let s1 :=
    { s with
        pending_transactions := s.pending_transactions ++ [⟨tx, now⟩] }
  if s.transaction_limit ≤ s1.pending_transactions.length then
    let s2 := (mineBlock H s1 now).1
    (s2, s2.pending_transactions.length)
  else
    (s1, s1.pending_transactions.length)

/-- The loop body of `verify_chain`, checking each block after the first
against its predecessor: `previous_hash` linkage and hash recomputation. -/
def verifyFrom (H : BlockBody → Nat) : Block → List Block → Bool
  | _, [] => true
  | prev, cur :: rest =>
      decide (cur.body.previous_hash = prev.hash)
        && decide (H cur.body = cur.hash)
        && verifyFrom H cur rest

/-- `ConsortiumBlockchain.verify_chain`. -/
def verifyChain (H : BlockBody → Nat) (s : BCState) : Bool :=
  match s.blocks with
  | [] => true
  | b :: rest => verifyFrom H b rest

/-- Structural well-formedness of a block list continuing a chain whose tip
hash is `prevHash` at position `idx`: correct linkage, correct indices, and
every stored hash equal to the recomputed hash of its body. -/
def GoodChain (H : BlockBody → Nat) : Nat → Nat → List Block → Prop
  | _, _, [] => True
  | prevHash, idx, b :: rest =>
      b.body.previous_hash = prevHash ∧ b.body.index = idx
        ∧ b.hash = H b.body ∧ GoodChain H b.hash (idx + 1) rest

/-- Hash of the last block of the list, or `prevHash` if it is empty. -/
def tipHash : Nat → List Block → Nat
  | p, [] => p
  | _, b :: rest => tipHash b.hash rest

/-- The blockchain state invariant: the chain is well formed from the genesis
hash, and the in-construction block correctly references the tip. -/
def ChainInv (H : BlockBody → Nat) (s : BCState) : Prop :=
  GoodChain H 0 0 s.blocks
    ∧ s.current_previous_hash = tipHash 0 s.blocks
    ∧ s.current_index = s.blocks.length

theorem tipHash_append (b : Block) :
    ∀ (bs : List Block) (p : Nat), tipHash p (bs ++ [b]) = b.hash
  | [], _ => rfl
  | _ :: rest, _ => tipHash_append b rest _

theorem goodChain_append (H : BlockBody → Nat) (b : Block) :
    ∀ (bs : List Block) (p i : Nat), GoodChain H p i bs →
      b.body.previous_hash = tipHash p bs → b.body.index = i + bs.length →
      b.hash = H b.body → GoodChain H p i (bs ++ [b])
  | [], p, i, _, hprev, hidx, hh =>
      ⟨hprev, by simpa using hidx, hh, trivial⟩
  | c :: cs, p, i, hgood, hprev, hidx, hh => by
      refine ⟨hgood.1, hgood.2.1, hgood.2.2.1, ?_⟩
      exact goodChain_append H b cs c.hash (i + 1) hgood.2.2.2 hprev
        (by simp [hidx]; omega) hh

theorem verifyFrom_of_goodChain (H : BlockBody → Nat) :
    ∀ (bs : List Block) (p i : Nat) (prev : Block), prev.hash = p →
      GoodChain H p i bs → verifyFrom H prev bs = true
  | [], _, _, _, _, _ => rfl
  | c :: cs, p, i, prev, hp, hgood => by
      simp only [verifyFrom, Bool.and_eq_true, decide_eq_true_eq]
      exact ⟨⟨by rw [hgood.1, hp], hgood.2.2.1.symm⟩,
        verifyFrom_of_goodChain H cs c.hash (i + 1) c rfl hgood.2.2.2⟩

theorem verifyChain_of_chainInv (H : BlockBody → Nat) (s : BCState)
    (hinv : ChainInv H s) : verifyChain H s = true := by
  rcases hs : s.blocks with _ | ⟨b, rest⟩
  · simp [verifyChain, hs]
  · have hgood := hinv.1
    rw [hs] at hgood
    simp only [verifyChain, hs]
    exact verifyFrom_of_goodChain H rest b.hash 1 b rfl hgood.2.2.2

theorem chainInv_mineBlock (H : BlockBody → Nat) (s : BCState) (now : ℚ)
    (hinv : ChainInv H s) : ChainInv H (mineBlock H s now).1 := by
  by_cases hp : s.pending_transactions = []
  · simpa [mineBlock, hp] using hinv
  · simp only [ChainInv, mineBlock, if_neg hp]
    refine ⟨?_, ?_, ?_⟩
    · exact goodChain_append H _ s.blocks 0 0 hinv.1 hinv.2.1
        (by simpa using hinv.2.2) rfl
    · exact (tipHash_append
        ⟨⟨s.current_index, now, s.pending_transactions,
            s.current_previous_hash, s.current_nonce⟩,
          H ⟨s.current_index, now, s.pending_transactions,
            s.current_previous_hash, s.current_nonce⟩⟩ s.blocks 0).symm
    · simp

theorem chainInv_addTransaction (H : BlockBody → Nat) (s : BCState)
    (tx : TxPayload) (now : ℚ) (hinv : ChainInv H s) :
    ChainInv H (addTransaction H s tx now).1 := by
  have hinv1 : ChainInv H
      { s with pending_transactions := s.pending_transactions ++ [⟨tx, now⟩] } :=
    ⟨hinv.1, hinv.2.1, hinv.2.2⟩
  by_cases hc : s.transaction_limit ≤ s.pending_transactions.length + 1
  · simpa [addTransaction, hc] using
      chainInv_mineBlock H
        { s with pending_transactions := s.pending_transactions ++ [⟨tx, now⟩] }
        now hinv1
  · simpa [addTransaction, hc] using hinv1

/-- Every ledger state reachable from the initial state by `add_transaction`
and `mine_block` calls only. -/
inductive ReachableChain (H : BlockBody → Nat) : BCState → Prop where
  | init : ReachableChain H initialChain
  | add (s : BCState) (tx : TxPayload) (now : ℚ) :
      ReachableChain H s → ReachableChain H (addTransaction H s tx now).1
  | mine (s : BCState) (now : ℚ) :
      ReachableChain H s → ReachableChain H (mineBlock H s now).1

theorem chainInv_of_reachable (H : BlockBody → Nat) (s : BCState)
    (h : ReachableChain H s) : ChainInv H s := by
  induction h with
  | init => exact ⟨trivial, rfl, rfl⟩
  | add s tx now _ ih => exact chainInv_addTransaction H s tx now ih
  | mine s now _ ih => exact chainInv_mineBlock H s now ih

/-- C4: on every ledger state reachable by any finite sequence of
`add_transaction` / `mine_block` calls, `verify_chain` returns true, and
indeed the whole chain is well formed from the genesis hash: every block's
`previous_hash` is the stored hash of its predecessor, indices are
consecutive, and every sealed block's stored hash equals the hash recomputed
over its body. -/
theorem c4_verify_chain_reachable (H : BlockBody → Nat) (s : BCState)
    (h : ReachableChain H s) :
    verifyChain H s = true ∧ GoodChain H 0 0 s.blocks := by
  have hinv := chainInv_of_reachable H s h
  exact ⟨verifyChain_of_chainInv H s hinv, hinv.1⟩

/-- A concrete stand-in block hash for closed statements. -/
def constHash : BlockBody → Nat := fun _ => 5

/-- C4 witnessed on the concrete state reached by one `add_transaction` call
on the initial chain. -/
theorem c4_verify_chain_reachable_witness :
    verifyChain constHash
        (addTransaction constHash initialChain (TxPayload.generic "t" 0) 0).1
        = true
    ∧ GoodChain constHash 0 0
        (addTransaction constHash initialChain (TxPayload.generic "t" 0) 0).1.blocks :=
  c4_verify_chain_reachable constHash _
    (ReachableChain.add initialChain (TxPayload.generic "t" 0) 0
      ReachableChain.init)

/-- C8: an `add_transaction` call that brings the pending count exactly to the
batch limit seals a block within the call (one more block, empty pending
queue); a call that leaves the pending count below the limit seals nothing and
only appends to the pending queue. -/
theorem c8_add_transaction_auto_seal (H : BlockBody → Nat) (s : BCState)
    (tx : TxPayload) (now : ℚ) :
    (s.pending_transactions.length + 1 = s.transaction_limit →
        (addTransaction H s tx now).1.pending_transactions = []
          ∧ (addTransaction H s tx now).1.blocks.length = s.blocks.length + 1)
    ∧ (s.pending_transactions.length + 1 < s.transaction_limit →
        (addTransaction H s tx now).1.blocks = s.blocks
          ∧ (addTransaction H s tx now).1.pending_transactions
              = s.pending_transactions ++ [⟨tx, now⟩]) := by
  constructor
  · intro h
    have hc : s.transaction_limit ≤ s.pending_transactions.length + 1 :=
      le_of_eq h.symm
    have hne : s.pending_transactions ++ [(⟨tx, now⟩ : PendingTx)] ≠ [] := by
      simp
    simp [addTransaction, mineBlock, hc, hne]
  · intro h
    have hc : ¬ s.transaction_limit ≤ s.pending_transactions.length + 1 := by
      omega
    simp [addTransaction, hc]

/-- C8 witnessed: with nine pending transactions and limit 10, the tenth add
seals a block and empties the queue; on the empty initial chain, an add below
the limit seals nothing. -/
theorem c8_add_transaction_auto_seal_witness :
    ((addTransaction constHash
        { initialChain with
            pending_transactions :=
              List.replicate 9 ⟨TxPayload.generic "x" 0, 0⟩ }
        (TxPayload.generic "y" 0) 1).1.pending_transactions = []
      ∧ (addTransaction constHash
        { initialChain with
            pending_transactions :=
              List.replicate 9 ⟨TxPayload.generic "x" 0, 0⟩ }
        (TxPayload.generic "y" 0) 1).1.blocks.length
          = ({ initialChain with
                pending_transactions :=
                  List.replicate 9 ⟨TxPayload.generic "x" 0, 0⟩ } :
              BCState).blocks.length + 1)
    ∧ ((addTransaction constHash initialChain
        (TxPayload.generic "y" 0) 1).1.blocks = initialChain.blocks
      ∧ (addTransaction constHash initialChain
        (TxPayload.generic "y" 0) 1).1.pending_transactions
          = initialChain.pending_transactions ++ [⟨TxPayload.generic "y" 0, 1⟩]) :=
  ⟨(c8_add_transaction_auto_seal constHash
      { initialChain with
          pending_transactions :=
            List.replicate 9 ⟨TxPayload.generic "x" 0, 0⟩ }
      (TxPayload.generic "y" 0) 1).1 rfl,
    (c8_add_transaction_auto_seal constHash initialChain
      (TxPayload.generic "y" 0) 1).2 (by decide)⟩

/-! ## `federated_learning/anomaly_detection.py` — AnomalyDetectionModel

Model state and parameter snapshots.  `numpy` arrays become `List ℚ` /
`List (List ℚ)`; the two floating-point library routines `numpy.sqrt` and
`numpy.linalg.inv` are abstracted as explicit function parameters `sqrtFn` and
`invFn` — the round-trip theorem holds for every choice of both. -/

/-- One raw log record; `record.get(key, 0)` defaults are the fields
themselves. -/
structure AuthRecord where
  time_of_day : ℚ
  location : ℚ
  frequency : ℚ
  duration : ℚ
  power : ℚ
deriving DecidableEq

/-- `AnomalyDetectionModel._extract_features`: the five base features plus the
derived `power/(frequency + 1e-10)` ratio and `duration * power`. -/
def extractFeatures (r : AuthRecord) : List ℚ :=
  [r.time_of_day, r.location, r.frequency, r.duration, r.power,
    r.power / (r.frequency + 1 / 10 ^ 10), r.duration * r.power]

/-- `AnomalyDetectionModel` state.  `mean_vector`, `cov_matrix` and
`std_vector` start as `None`; `threshold` starts at `0.95`; `version` and
`updated_at` come from the `FederatedLearningModel` base class. -/
structure ADModel where
  model_id : String
  version : Nat
  updated_at : ℚ
  mean_vector : Option (List ℚ)
  cov_matrix : Option (List (List ℚ))
  std_vector : Option (List ℚ)
  threshold : ℚ
deriving DecidableEq

/-- `AnomalyDetectionModel.__init__`. -/
def initADModel (modelId : String) (now : ℚ) : ADModel :=
  { model_id := modelId
    version := 1
    updated_at := now
    mean_vector := none
    cov_matrix := none
    std_vector := none
    threshold := 95 / 100 }

/-- A parameter snapshot — the dict moved between tiers.  `Option` fields
model the presence of the corresponding dict key; `trained` is read with
`p.get('trained', False)`, so a missing key is `false`. -/
structure ModelParams where
  version : Option Nat
  updated_at : Option ℚ
  trained : Bool
  mean_vector : Option (List ℚ)
  cov_matrix : Option (List (List ℚ))
  std_vector : Option (List ℚ)
  threshold : Option ℚ
deriving DecidableEq

/-- `AnomalyDetectionModel.get_model_parameters`: an untrained model (no mean
vector or no covariance) exports only version/updated_at/trained=false; a
trained model exports everything.  (In the trained branch the code reads
`self.std_vector` unconditionally; the `Option` is passed through.) -/
def getModelParameters (m : ADModel) : ModelParams :=
  match m.mean_vector, m.cov_matrix with
  | some mv, some cm =>
      { version := some m.version
        updated_at := some m.updated_at
        trained := true
        mean_vector := some mv
        cov_matrix := some cm
        std_vector := m.std_vector
        threshold := some m.threshold }
  | _, _ =>
      { version := some m.version
        updated_at := some m.updated_at
        trained := false
        mean_vector := none
        cov_matrix := none
        std_vector := none
        threshold := none }

/-- `AnomalyDetectionModel.set_model_parameters`: refuse (returning `false`,
model unchanged) unless the snapshot is marked trained; otherwise overwrite
each field whose key is present and stamp `updated_at`. -/
def setModelParameters (m : ADModel) (p : ModelParams) (now : ℚ) :
    ADModel × Bool :=
  if !p.trained then (m, false)
  else
    ({ m with
        mean_vector :=
          match p.mean_vector with
          | some v => some v
          | none => m.mean_vector
        cov_matrix :=
          match p.cov_matrix with
          | some v => some v
          | none => m.cov_matrix
        std_vector :=
          match p.std_vector with
          | some v => some v
          | none => m.std_vector
        threshold := p.threshold.getD m.threshold
        version := p.version.getD m.version
        updated_at := now },
      true)

/-- Sum of pairwise products (a row of `np.dot`). -/
def dotProd (a b : List ℚ) : ℚ := (List.zipWith (fun x y => x * y) a b).sum

/-- Elementwise sum of two equal-length vectors. -/
def vecAdd (a b : List ℚ) : List ℚ := List.zipWith (fun x y => x + y) a b

/-- Elementwise difference of two equal-length vectors. -/
def vecSub (a b : List ℚ) : List ℚ := List.zipWith (fun x y => x - y) a b

/-- A vector scaled by a constant. -/
def scaleVec (c : ℚ) (v : List ℚ) : List ℚ := v.map (fun x => c * x)

/-- Row-vector–matrix product `np.dot(diff, inv_cov)`. -/
def vecMatMul (d : List ℚ) (M : List (List ℚ)) : List ℚ :=
  match List.zipWith scaleVec d M with
  | [] => []
  | v :: vs => vs.foldl vecAdd v

/-- The squared Mahalanobis distance of `_compute_mahalanobis` (before the
square root): `(f - mean) · invCov · (f - mean)`. -/
def mahalanobisSq (mean : List ℚ) (invCov : List (List ℚ)) (f : List ℚ) : ℚ :=
  let d := vecSub f mean
  dotProd (vecMatMul d invCov) d

/-- `np.clip(x, 0, 1)`. -/
def clip01 (x : ℚ) : ℚ := min (max x 0) 1

/-- `AnomalyDetectionModel.predict`: an untrained model scores every record
`1.0`; otherwise each record's Mahalanobis distance (square root by `sqrtFn`,
covariance inverse by `invFn`) is divided by the threshold and clamped to
`[0, 1]`. -/
def predictScores (sqrtFn : ℚ → ℚ) (invFn : List (List ℚ) → List (List ℚ))
    (m : ADModel) (data : List AuthRecord) : List ℚ :=
  match m.mean_vector, m.cov_matrix with
  | some mv, some cm =>
      if data = [] then []
      else
        let ic := invFn cm
        data.map fun r =>
          clip01 (sqrtFn (mahalanobisSq mv ic (extractFeatures r)) / m.threshold)
  | _, _ => List.replicate data.length (1 : ℚ)

/-- C9: on a trained model, exporting the parameters and re-importing them
(`set_model_parameters (get_model_parameters m)`) leaves every `predict`
output on every fixed input set unchanged — exactly equal in the exact
rational semantics, for every square root and every matrix inverse. -/
theorem c9_params_roundtrip_predict (sqrtFn : ℚ → ℚ)
    (invFn : List (List ℚ) → List (List ℚ)) (m : ADModel) (now : ℚ)
    (data : List AuthRecord) (hm : m.mean_vector.isSome)
    (hc : m.cov_matrix.isSome) :
    predictScores sqrtFn invFn
        (setModelParameters m (getModelParameters m) now).1 data
      = predictScores sqrtFn invFn m data := by
  rcases hmv : m.mean_vector with _ | mv
  · rw [hmv] at hm; simp at hm
  rcases hcv : m.cov_matrix with _ | cm
  · rw [hcv] at hc; simp at hc
  simp [getModelParameters, setModelParameters, predictScores, hmv, hcv]

/-- C9 witnessed on a concrete trained model, with the identity functions
standing in for square root and matrix inverse. -/
theorem c9_params_roundtrip_predict_witness :
    predictScores id id
        (setModelParameters ⟨"m", 2, 0, some [1], some [[1]], some [1], 3⟩
          (getModelParameters ⟨"m", 2, 0, some [1], some [[1]], some [1], 3⟩)
          9).1
        [⟨1, 1, 1, 1, 1⟩]
      = predictScores id id ⟨"m", 2, 0, some [1], some [[1]], some [1], 3⟩
          [⟨1, 1, 1, 1, 1⟩] :=
  c9_params_roundtrip_predict id id ⟨"m", 2, 0, some [1], some [[1]], some [1], 3⟩
    9 [⟨1, 1, 1, 1, 1⟩] rfl rfl

/-! ## `federated_learning/hierarchical_fl.py` — HierarchicalFederatedLearning -/

/-- `np.mean(vectors, axis=0)`: elementwise mean of equal-length vectors. -/
def vecMean (vs : List (List ℚ)) : List ℚ :=
  match vs with
  | [] => []
  | v :: rest => (rest.foldl vecAdd v).map (fun x => x / (vs.length : ℚ))

/-- Python `max` over the (always nonempty, all-positive) version list. -/
def listMax (l : List Nat) : Nat := l.foldl max 0

/-- `HierarchicalFederatedLearning._aggregate_parameters`: start from a copy
of the first snapshot; average `mean_vector` and `std_vector` elementwise
when every snapshot has them; average `threshold` (defaulting a missing one to
3.0); take the maximum `version` (defaulting to 1); stamp `updated_at`.  Every
other field — in particular `cov_matrix` — stays whatever the FIRST snapshot
had.  An empty list yields the empty dict. -/
def aggregateParameters (ps : List ModelParams) (now : ℚ) : ModelParams :=
  match ps with
  | [] =>
      { version := none, updated_at := none, trained := false,
        mean_vector := none, cov_matrix := none, std_vector := none,
        threshold := none }
  | first :: _ =>
      { first with
          mean_vector :=
            if first.mean_vector.isSome
                && ps.all (fun p => p.mean_vector.isSome) then
              some (vecMean (ps.map (fun p => p.mean_vector.getD [])))
            else first.mean_vector
          std_vector :=
            if first.std_vector.isSome
                && ps.all (fun p => p.std_vector.isSome) then
              some (vecMean (ps.map (fun p => p.std_vector.getD [])))
            else first.std_vector
          threshold :=
            if first.threshold.isSome then
              some ((ps.map (fun p => p.threshold.getD 3)).sum / (ps.length : ℚ))
            else first.threshold
          version := some (listMax (ps.map (fun p => p.version.getD 1)))
          updated_at := some now }

/-- The shared upward-aggregation step of `aggregate_local_models` and
`aggregate_edge_models`: keep only snapshots marked trained; fail (parent
unchanged, `false`) when none remain; otherwise install the aggregated
snapshot into the parent model. -/
def aggregateUp (parent : ADModel) (childrenParams : List ModelParams)
    (now : ℚ) : ADModel × Bool :=
  let parametersList := childrenParams.filter (fun p => p.trained)
  if parametersList = [] then (parent, false)
  else setModelParameters parent (aggregateParameters parametersList now) now

/-- `HierarchicalFederatedLearning` state. -/
structure HFLState where
  global_model : Option ADModel
  edge_models : List (String × ADModel)
  local_models : List (String × ADModel)

/-- `HierarchicalFederatedLearning.aggregate_edge_models` on an explicit id
list: fail without a global model or without any existing edge model;
otherwise aggregate the existing edge models' snapshots up into the global
model. -/
def aggregateEdgeModels (hfl : HFLState) (edgeIds : List String) (now : ℚ) :
    HFLState × Bool :=
  match hfl.global_model with
  | none => (hfl, false)
  | some g =>
      let validEdgeIds :=
        edgeIds.filter (fun eid => (dictLookup hfl.edge_models eid).isSome)
      if validEdgeIds = [] then (hfl, false)
      else
        let childrenParams :=
          (validEdgeIds.filterMap (dictLookup hfl.edge_models)).map
            getModelParameters
        let res := aggregateUp g childrenParams now
        ({ hfl with global_model := some res.1 }, res.2)

/-- From the spec's words, for comparison with `aggregateParameters`: the
elementwise mean of a list of matrices (what "elementwise mean of the
covariance parameters" demands). -/
def specElementwiseMatMean (ms : List (List (List ℚ))) : List (List ℚ) :=
  match ms with
  | [] => []
  | M :: rest =>
      (rest.foldl (fun A B => List.zipWith vecAdd A B) M).map
        (fun row => row.map (fun x => x / (ms.length : ℚ)))

/-- A trained child snapshot used in closed statements. -/
def childParams1 : ModelParams :=
  { version := some 2, updated_at := some 0, trained := true,
    mean_vector := some [1], cov_matrix := some [[0]],
    std_vector := some [1], threshold := some 1 }

/-- A second trained child snapshot, with a different covariance. -/
def childParams2 : ModelParams :=
  { version := some 3, updated_at := some 0, trained := true,
    mean_vector := some [3], cov_matrix := some [[2]],
    std_vector := some [1], threshold := some 2 }

/-- C3 counterexample: aggregating two trained children whose covariance
matrices are `[[0]]` and `[[2]]` yields covariance `[[0]]` — the first
child's, not the elementwise mean `[[1]]` the claim demands. -/
theorem c3_cov_not_averaged_counterexample :
    (aggregateUp (initADModel "global_model" 0) [childParams1, childParams2]
        0).1.cov_matrix = some [[0]]
    ∧ specElementwiseMatMean [[[0]], [[2]]] = [[1]]
    ∧ (aggregateUp (initADModel "global_model" 0) [childParams1, childParams2]
        0).1.cov_matrix
        ≠ some (specElementwiseMatMean [[[0]], [[2]]]) := by
  have h1 : (aggregateUp (initADModel "global_model" 0)
      [childParams1, childParams2] 0).1.cov_matrix = some [[0]] := by
    simp [aggregateUp, aggregateParameters, setModelParameters,
      childParams1, childParams2]
  have h2 : specElementwiseMatMean [[[0]], [[2]]] = [[(1 : ℚ)]] := by
    norm_num [specElementwiseMatMean, vecAdd]
  refine ⟨h1, h2, ?_⟩
  rw [h1, h2]
  intro hcontra
  simp at hcontra

/-- C3 amended: upward aggregation considers only the children marked trained.
With no trained children it fails, returning `false` and leaving the parent
unchanged.  With at least one it succeeds and installs the elementwise mean of
the trained children's mean vectors and of their std vectors, the mean of
their thresholds, and the maximum of their versions — but the covariance
matrix is inherited unchanged from the FIRST trained child, not averaged. -/
theorem c3_aggregate_up_amended (parent : ADModel) (ps : List ModelParams)
    (now : ℚ)
    (hwf : ∀ p ∈ ps, p.trained = true →
      p.mean_vector.isSome ∧ p.std_vector.isSome
        ∧ p.threshold.isSome ∧ p.cov_matrix.isSome) :
    (ps.filter (fun p => p.trained) = [] →
        aggregateUp parent ps now = (parent, false))
    ∧ (∀ q qs, ps.filter (fun p => p.trained) = q :: qs →
        (aggregateUp parent ps now).2 = true
        ∧ (aggregateUp parent ps now).1.mean_vector
            = some (vecMean ((q :: qs).map (fun p => p.mean_vector.getD [])))
        ∧ (aggregateUp parent ps now).1.std_vector
            = some (vecMean ((q :: qs).map (fun p => p.std_vector.getD [])))
        ∧ (aggregateUp parent ps now).1.threshold
            = ((q :: qs).map (fun p => p.threshold.getD 3)).sum
                / (((q :: qs).length : ℚ))
        ∧ (aggregateUp parent ps now).1.cov_matrix = q.cov_matrix
        ∧ (aggregateUp parent ps now).1.version
            = listMax ((q :: qs).map (fun p => p.version.getD 1))) := by
  constructor
  · intro hfil
    simp [aggregateUp, hfil]
  · intro q qs hfil
    have hmem : ∀ p ∈ q :: qs, p ∈ ps ∧ p.trained = true := by
      intro p hp
      rw [← hfil] at hp
      have hm := List.mem_filter.mp hp
      exact ⟨hm.1, by simpa using hm.2⟩
    have hq := hmem q (List.mem_cons_self q qs)
    obtain ⟨hmv, hsv, hth, hcv⟩ := hwf q hq.1 hq.2
    obtain ⟨mv, hmv'⟩ := Option.isSome_iff_exists.mp hmv
    obtain ⟨sv, hsv'⟩ := Option.isSome_iff_exists.mp hsv
    obtain ⟨th, hth'⟩ := Option.isSome_iff_exists.mp hth
    obtain ⟨cv, hcv'⟩ := Option.isSome_iff_exists.mp hcv
    have hallm : qs.all (fun p => p.mean_vector.isSome) = true := by
      rw [List.all_eq_true]
      intro p hp
      have hp' := hmem p (List.mem_cons_of_mem q hp)
      exact (hwf p hp'.1 hp'.2).1
    have halls : qs.all (fun p => p.std_vector.isSome) = true := by
      rw [List.all_eq_true]
      intro p hp
      have hp' := hmem p (List.mem_cons_of_mem q hp)
      exact (hwf p hp'.1 hp'.2).2.1
    simp [aggregateUp, aggregateParameters, setModelParameters, hfil,
      hmv', hsv', hth', hcv', hallm, halls, hq.2]

/-- C3 amended, witnessed: aggregating the two concrete trained children
succeeds, averaging the mean vectors and inheriting the first child's
covariance; aggregating an empty child list fails with the parent unchanged. -/
theorem c3_aggregate_up_amended_witness :
    ((aggregateUp (initADModel "global_model" 0) [childParams1, childParams2]
          0).2 = true
      ∧ (aggregateUp (initADModel "global_model" 0)
          [childParams1, childParams2] 0).1.mean_vector
          = some (vecMean ([childParams1, childParams2].map
              (fun p => p.mean_vector.getD [])))
      ∧ (aggregateUp (initADModel "global_model" 0)
          [childParams1, childParams2] 0).1.cov_matrix
          = childParams1.cov_matrix)
    ∧ aggregateUp (initADModel "g" 0) [] 0 = (initADModel "g" 0, false) := by
  have h := c3_aggregate_up_amended (initADModel "global_model" 0)
    [childParams1, childParams2] 0
    (by intro p hp htr; fin_cases hp <;> simp [childParams1, childParams2])
  have h2 := h.2 childParams1 [childParams2]
    (by simp [childParams1, childParams2])
  refine ⟨⟨h2.1, h2.2.1, h2.2.2.2.2.1⟩, ?_⟩
  exact (c3_aggregate_up_amended (initADModel "g" 0) [] 0 (by simp)).1 rfl

/-! ## `entity_models/*.py` and `lqap_protocol/protocol.py` — LQAPProtocol

The protocol orchestrator state keeps the fields the embedded operations
read or write: the entity dicts, the ledger and the active-session map.  (The
certificate authority, the ESP dict, the FL-model registry and the
maintenance-thread flags are never touched by `cross_domain_authentication` /
`end_session` and are omitted.)  String serializations fed to XMSS signing,
and the `str(hash(str(credential)))` credential id, are abstracted as
function parameters in `ProtoEnv`; `uuid.uuid4()` session ids and
`random.random()` anomaly scores are explicit arguments of the calls that
draw them. -/

/-- The credential dict built by `EdgeNode.issue_verifiable_credential`
(`ctype` is the `'type'` key, always `'cross-domain-auth'`). -/
structure CredentialData where
  subject_id : String
  issuer_id : String
  issued_at : ℚ
  expiry : ℚ
  ctype : String
deriving DecidableEq

/-- `{'credential': ..., 'signature': ...}`. -/
structure VerifiableCredential where
  credential : CredentialData
  signature : Nat
deriving DecidableEq

/-- `ElectricVehicle` state (`entity_models/electric_vehicle.py`). -/
structure EV where
  id : String
  public_key : Nat
  private_key : XMSSPrivateKey
  certificate : Option Certificate
  battery_level : ℚ
  charging_status : String
  verifiable_credential : Option VerifiableCredential
deriving DecidableEq

/-- An entry of `ChargingStation.active_charging_sessions`. -/
structure ChargingSession where
  start_time : ℚ
  power_allocated : ℚ
deriving DecidableEq

/-- `ChargingStation` state (`entity_models/charging_station.py`). -/
structure CS where
  id : String
  public_key : Nat
  private_key : XMSSPrivateKey
  certificate : Option Certificate
  available_power : ℚ
  connected_evs : List String
  active_charging_sessions : List (String × ChargingSession)
deriving DecidableEq

/-- An entry of `EdgeNode.connection_logs[ev_id]` (`ltype` is the `'type'`
key, always `'authentication'`). -/
structure ConnectionLog where
  cs_id : String
  timestamp : ℚ
  ltype : String
deriving DecidableEq

/-- `EdgeNode` state (`entity_models/edge_node.py`). -/
structure EN where
  id : String
  public_key : Nat
  private_key : XMSSPrivateKey
  certificate : Option Certificate
  connected_charging_stations : List String
  connection_logs : List (String × List ConnectionLog)
deriving DecidableEq

/-- The request dict of `BaseEntity.create_authentication_request`. -/
structure AuthRequest where
  id : String
  etype : String
  timestamp : ℚ
  certificate : Option Certificate
deriving DecidableEq

/-- `{'request': ..., 'signature': ...}`. -/
structure SignedAuthRequest where
  request : AuthRequest
  signature : Nat
deriving DecidableEq

/-- An entry of `LQAPProtocol.active_sessions` (`stype` is the `'type'` key;
`en_id` is present only for cross-domain sessions). -/
structure SessionInfo where
  ev_id : String
  cs_id : String
  created_at : ℚ
  stype : String
  en_id : Option String
deriving DecidableEq

/-- The `LQAPProtocol` state touched by the embedded operations. -/
structure ProtoState where
  evs : List (String × EV)
  charging_stations : List (String × CS)
  edge_nodes : List (String × EN)
  blockchain : BCState
  active_sessions : List (String × SessionInfo)
deriving DecidableEq

/-- The deterministic environment of the protocol: block hash, signing hash,
and the string serializations the code feeds to them. -/
structure ProtoEnv where
  blockHash : BlockBody → Nat
  sigHash : List Nat → Nat → List Nat → Nat
  encAuthReq : AuthRequest → List Nat
  encCred : CredentialData → List Nat
  credIdOf : VerifiableCredential → String

/-- `BaseEntity.create_authentication_request` for an EV: build the request
dict, sign its serialization with the entity's XMSS key (incrementing the key
index). -/
def createAuthenticationRequest (env : ProtoEnv) (ev : EV) (now : ℚ) :
    SignedAuthRequest × EV :=
  let request : AuthRequest := ⟨ev.id, "EV", now, ev.certificate⟩
  let signed := xmssSign env.sigHash ev.private_key (env.encAuthReq request)
  (⟨request, signed.1⟩, { ev with private_key := signed.2 })

/-- `EdgeNode.issue_verifiable_credential` (default validity 24 hours). -/
def enIssueVerifiableCredential (env : ProtoEnv) (en : EN) (evId : String)
    (now : ℚ) : VerifiableCredential × EN :=
  let cred : CredentialData :=
    ⟨evId, en.id, now, now + 24 * 3600, "cross-domain-auth"⟩
  let signed := xmssSign env.sigHash en.private_key (env.encCred cred)
  (⟨cred, signed.1⟩, { en with private_key := signed.2 })

/-- `EdgeNode.log_connection`: append an entry to the EV's log list, creating
it if needed; returns the new log length. -/
def enLogConnection (en : EN) (evId csId : String) (now : ℚ) : EN × Nat :=
  let logs := (dictLookup en.connection_logs evId).getD []
  let logs' := logs ++ [⟨csId, now, "authentication"⟩]
  ({ en with connection_logs := dictInsert en.connection_logs evId logs' },
    logs'.length)

/-- `ChargingStation.connect_ev`. -/
def csConnectEv (cs : CS) (evId : String) : CS × Bool :=
  if evId ∈ cs.connected_evs then (cs, false)
  else ({ cs with connected_evs := cs.connected_evs ++ [evId] }, true)

/-- `ChargingStation.disconnect_ev`: remove the EV and end any active
charging session for it. -/
def csDisconnectEv (cs : CS) (evId : String) : CS × Bool :=
  if evId ∈ cs.connected_evs then
    ({ cs with
        connected_evs := cs.connected_evs.erase evId
        active_charging_sessions :=
          if (dictLookup cs.active_charging_sessions evId).isSome then
            dictErase cs.active_charging_sessions evId
          else cs.active_charging_sessions },
      true)
  else (cs, false)

/-- `ChargingStation.verify_authentication_request`: "we'll just return
True". -/
def csVerifyAuthenticationRequest (_cs : CS) (_req : SignedAuthRequest) :
    Bool × String :=
  (true, "Authentication successful")

/-- `LQAPProtocol.issue_verifiable_credential`: resolve the EV, pick the given
edge node or default to the first registered one, have it sign a credential
(storing it with the EV), and record a `credential_issuance` transaction. -/
def issueVerifiableCredential (env : ProtoEnv) (s : ProtoState)
    (evId : String) (enId0 : Option String) (now : ℚ) :
    ProtoState × Option VerifiableCredential × String :=
  match dictLookup s.evs evId with
  | none => (s, none, "EV not found")
  | some ev =>
      let enIdChosen : Option String :=
        match enId0 with
        | some e => some e
        | none =>
            match s.edge_nodes with
            | [] => none
            | (k, _) :: _ => some k
      match enIdChosen with
      | none => (s, none, "No edge nodes available")
      | some enId =>
          match dictLookup s.edge_nodes enId with
          | none => (s, none, "Edge node not found")
          | some en =>
              let issued := enIssueVerifiableCredential env en evId now
              let ev' := { ev with verifiable_credential := some issued.1 }
              let bc' := (addTransaction env.blockHash s.blockchain
                (TxPayload.credential_issuance evId enId
                  (env.credIdOf issued.1) now) now).1
              ({ s with
                  evs := dictInsert s.evs evId ev'
                  edge_nodes := dictInsert s.edge_nodes enId issued.2
                  blockchain := bc' },
                some issued.1, "Credential issued successfully")

/-- Result of an authentication call: Python's `(False, message)` or
`(True, {'session_id': ..., 'message': ...})`. -/
inductive AuthOutcome where
  | failure (message : String)
  | success (session_id : String) (message : String)
deriving DecidableEq

/-- `LQAPProtocol.cross_domain_authentication`.  `score` is the value drawn by
`random.random()` inside `en.evaluate_anomaly_score(ev_id)`; `sessionId` is
the drawn `uuid.uuid4()`.  In Python the EV object fetched at the top is
mutated in place by the credential auto-issue, so after that step the EV is
re-read from the state (the `none` branch of that re-read is unreachable:
registration is never lost). -/
def crossDomainAuthentication (env : ProtoEnv) (s : ProtoState)
    (evId csId : String) (enId0 : Option String) (score : ℚ)
    (sessionId : String) (now : ℚ) : ProtoState × AuthOutcome :=
  match dictLookup s.evs evId with
  | none => (s, AuthOutcome.failure "EV not found")
  | some ev0 =>
    match dictLookup s.charging_stations csId with
    | none => (s, AuthOutcome.failure "Charging station not found")
    | some cs0 =>
      let credStep : ProtoState ⊕ (ProtoState × String) :=
        if ev0.verifiable_credential.isSome then Sum.inl s
        else
          let r := issueVerifiableCredential env s evId enId0 now
          match r.2.1 with
          | none => Sum.inr (r.1, r.2.2)
          | some _ => Sum.inl r.1
      match credStep with
      | Sum.inr se =>
          (se.1, AuthOutcome.failure ("Failed to issue credential: " ++ se.2))
      | Sum.inl s1 =>
        match dictLookup s1.evs evId with
        | none => (s1, AuthOutcome.failure "EV not found")
        | some ev1 =>
          let reqStep := createAuthenticationRequest env ev1 now
          let s2 := { s1 with evs := dictInsert s1.evs evId reqStep.2 }
          let enIdChosen : Option String :=
            match enId0 with
            | some e => some e
            | none =>
                match s2.edge_nodes with
                | [] => none
                | (k, _) :: _ => some k
          match enIdChosen with
          | none => (s2, AuthOutcome.failure "No edge nodes available")
          | some enId =>
            match dictLookup s2.edge_nodes enId with
            | none => (s2, AuthOutcome.failure "Edge node not found")
            | some en =>
              let verf := csVerifyAuthenticationRequest cs0 reqStep.1
              if !verf.1 then (s2, AuthOutcome.failure verf.2)
              else
                let logStep := enLogConnection en evId csId now
                let s3 :=
                  { s2 with
                      edge_nodes := dictInsert s2.edge_nodes enId logStep.1 }
                if score > 8 / 10 then
                  let bc' := (addTransaction env.blockHash s3.blockchain
                    (TxPayload.authentication_failure "cross_domain"
                      "anomaly_detected" evId csId enId score now) now).1
                  ({ s3 with blockchain := bc' },
                    AuthOutcome.failure
                      "Authentication rejected due to anomalous behavior")
                else
                  let sess : SessionInfo :=
                    ⟨evId, csId, now, "cross_domain", some enId⟩
                  let s4 :=
                    { s3 with
                        active_sessions :=
                          dictInsert s3.active_sessions sessionId sess }
                  let s5 :=
                    { s4 with
                        charging_stations :=
                          dictInsert s4.charging_stations csId
                            (csConnectEv cs0 evId).1 }
                  let bc' := (addTransaction env.blockHash s5.blockchain
                    (TxPayload.authentication "cross_domain" evId csId
                      (some enId) sessionId now) now).1
                  ({ s5 with blockchain := bc' },
                    AuthOutcome.success sessionId
                      "Cross-domain authentication successful")

/-- `LQAPProtocol.end_session`: fail if the session id is unknown; otherwise
disconnect the EV from the CS — only when both are still registered — record
a `session_end` transaction with the session's duration, and drop the
session. -/
def endSession (env : ProtoEnv) (s : ProtoState) (sessionId : String)
    (now : ℚ) : ProtoState × (Bool × String) :=
  match dictLookup s.active_sessions sessionId with
  | none => (s, (false, "Session not found"))
  | some info =>
      let s1 :=
        match dictLookup s.charging_stations info.cs_id,
            dictLookup s.evs info.ev_id with
        | some cs, some _ =>
            { s with
                charging_stations :=
                  dictInsert s.charging_stations info.cs_id
                    (csDisconnectEv cs info.ev_id).1 }
        | _, _ => s
      let bc' := (addTransaction env.blockHash s1.blockchain
        (TxPayload.session_end sessionId info.ev_id info.cs_id
          (now - info.created_at) now) now).1
      ({ s1 with
          blockchain := bc'
          active_sessions := dictErase s1.active_sessions sessionId },
        (true, "Session ended successfully"))

/-- Whether some transaction in the ledger — sealed or still pending —
satisfies `f`. -/
def ledgerHasTx (bc : BCState) (f : TxPayload → Bool) : Bool :=
  bc.pending_transactions.any (fun t => f t.data)
    || bc.blocks.any (fun b => b.body.transactions.any (fun t => f t.data))

theorem dictLookup_dictInsert_self {α : Type} :
    ∀ (l : List (String × α)) (k : String) (v : α),
      dictLookup (dictInsert l k v) k = some v
  | [], k, v => by simp [dictInsert, dictLookup]
  | (k', v') :: tl, k, v => by
      by_cases hk : k' = k
      · simp [dictInsert, hk, dictLookup]
      · simp [dictInsert, hk, dictLookup, dictLookup_dictInsert_self tl k v]

theorem ledgerHasTx_addTransaction (H : BlockBody → Nat) (bc : BCState)
    (tx : TxPayload) (now : ℚ) (f : TxPayload → Bool) (hf : f tx = true) :
    ledgerHasTx (addTransaction H bc tx now).1 f = true := by
  by_cases hc : bc.transaction_limit ≤ bc.pending_transactions.length + 1
  · have hne : bc.pending_transactions ++ [(⟨tx, now⟩ : PendingTx)] ≠ [] := by
      simp
    simp [addTransaction, mineBlock, ledgerHasTx, hc, hne, hf]
  · simp [addTransaction, ledgerHasTx, hc, hf]

/-- Recognizes the `authentication_failure` transaction that
`cross_domain_authentication` appends on an anomaly rejection. -/
def isAnomalyFailureTx (evId csId enId : String) (score : ℚ) :
    TxPayload → Bool := fun p =>
  match p with
  | TxPayload.authentication_failure mode reason e c n sc _ =>
      mode == "cross_domain" && reason == "anomaly_detected" && e == evId
        && c == csId && n == enId && decide (sc = score)
  | _ => false

/-- C5: whenever a `cross_domain_authentication` call reaches its adjudicating
edge node (the explicitly named one, or the first registered one by default)
and the drawn anomaly score exceeds 0.8, the call is rejected with the anomaly
message, an `authentication_failure` transaction carrying the reason
`anomaly_detected` and that exact score is put on the ledger, and the
active-session map is left exactly as it was — no session is created. -/
theorem c5_cross_domain_rejects_high_score (env : ProtoEnv) (s : ProtoState)
    (evId csId enId : String) (enId0 : Option String) (score : ℚ)
    (sessionId : String) (now : ℚ) (ev : EV)
    (hev : dictLookup s.evs evId = some ev)
    (hcs : (dictLookup s.charging_stations csId).isSome)
    (hen : (enId0 = some enId ∧ (dictLookup s.edge_nodes enId).isSome)
        ∨ (enId0 = none ∧ ∃ en rest, s.edge_nodes = (enId, en) :: rest))
    (hscore : score > 8 / 10) :
    (crossDomainAuthentication env s evId csId enId0 score sessionId now).2
        = AuthOutcome.failure "Authentication rejected due to anomalous behavior"
    ∧ (crossDomainAuthentication env s evId csId enId0 score sessionId
        now).1.active_sessions = s.active_sessions
    ∧ ledgerHasTx (crossDomainAuthentication env s evId csId enId0 score
        sessionId now).1.blockchain
        (isAnomalyFailureTx evId csId enId score) = true := by
  obtain ⟨cs, hcs'⟩ := Option.isSome_iff_exists.mp hcs
  rcases hen with ⟨henEq, henSome⟩ | ⟨henEq, en, rest, hedge⟩
  · obtain ⟨en, hen'⟩ := Option.isSome_iff_exists.mp henSome
    cases hcred : ev.verifiable_credential with
    | some c =>
        simp [crossDomainAuthentication, hev, hcs', hcred, henEq, hen',
          csVerifyAuthenticationRequest, hscore]
        exact ledgerHasTx_addTransaction _ _ _ _ _ (by simp [isAnomalyFailureTx])
    | none =>
        simp [crossDomainAuthentication, hev, hcs', hcred, henEq, hen',
          issueVerifiableCredential, csVerifyAuthenticationRequest, hscore,
          dictLookup_dictInsert_self]
        exact ledgerHasTx_addTransaction _ _ _ _ _ (by simp [isAnomalyFailureTx])
  · cases hcred : ev.verifiable_credential with
    | some c =>
        simp [crossDomainAuthentication, hev, hcs', hcred, henEq, hedge,
          dictLookup, csVerifyAuthenticationRequest, hscore]
        exact ledgerHasTx_addTransaction _ _ _ _ _ (by simp [isAnomalyFailureTx])
    | none =>
        simp [crossDomainAuthentication, hev, hcs', hcred, henEq, hedge,
          issueVerifiableCredential, dictLookup, dictInsert,
          csVerifyAuthenticationRequest, hscore, dictLookup_dictInsert_self]
        exact ledgerHasTx_addTransaction _ _ _ _ _ (by simp [isAnomalyFailureTx])

/-- Recognizes the `session_end` transaction that `end_session` appends. -/
def isSessionEndTx (sessionId evId csId : String) (dur : ℚ) :
    TxPayload → Bool := fun p =>
  match p with
  | TxPayload.session_end sid e c d _ =>
      sid == sessionId && e == evId && c == csId && decide (d = dur)
  | _ => false

/-- C10: `end_session` fails with "Session not found" exactly when the session
id is absent from the active-session map.  For a present session it succeeds —
even when the session's EV or CS is no longer registered — appends a
`session_end` transaction carrying the session's duration, and removes the
session from the active map; when an endpoint is unregistered, the entity
dicts are untouched (only the disconnect step is skipped). -/
theorem c10_end_session (env : ProtoEnv) (s : ProtoState)
    (sessionId : String) (now : ℚ)
    (hnd : (dictKeys s.active_sessions).Nodup) :
    (dictLookup s.active_sessions sessionId = none →
        endSession env s sessionId now = (s, (false, "Session not found")))
    ∧ (∀ info, dictLookup s.active_sessions sessionId = some info →
        (endSession env s sessionId now).2
            = (true, "Session ended successfully")
        ∧ dictLookup (endSession env s sessionId now).1.active_sessions
            sessionId = none
        ∧ ledgerHasTx (endSession env s sessionId now).1.blockchain
            (isSessionEndTx sessionId info.ev_id info.cs_id
              (now - info.created_at)) = true
        ∧ ((dictLookup s.charging_stations info.cs_id = none
              ∨ dictLookup s.evs info.ev_id = none) →
            (endSession env s sessionId now).1.charging_stations
                = s.charging_stations
              ∧ (endSession env s sessionId now).1.evs = s.evs)) := by
  constructor
  · intro hnone
    simp [endSession, hnone]
  · intro info hsome
    rcases hc : dictLookup s.charging_stations info.cs_id with _ | cs <;>
      rcases he : dictLookup s.evs info.ev_id with _ | ev
    · refine ⟨by simp [endSession, hsome, hc, he], ?_, ?_, ?_⟩
      · simp only [endSession, hsome, hc, he]
        exact dictLookup_dictErase_self _ _ hnd
      · simp only [endSession, hsome, hc, he]
        exact ledgerHasTx_addTransaction _ _ _ _ _ (by simp [isSessionEndTx])
      · intro _
        exact ⟨by simp [endSession, hsome, hc, he],
          by simp [endSession, hsome, hc, he]⟩
    · refine ⟨by simp [endSession, hsome, hc, he], ?_, ?_, ?_⟩
      · simp only [endSession, hsome, hc, he]
        exact dictLookup_dictErase_self _ _ hnd
      · simp only [endSession, hsome, hc, he]
        exact ledgerHasTx_addTransaction _ _ _ _ _ (by simp [isSessionEndTx])
      · intro _
        exact ⟨by simp [endSession, hsome, hc, he],
          by simp [endSession, hsome, hc, he]⟩
    · refine ⟨by simp [endSession, hsome, hc, he], ?_, ?_, ?_⟩
      · simp only [endSession, hsome, hc, he]
        exact dictLookup_dictErase_self _ _ hnd
      · simp only [endSession, hsome, hc, he]
        exact ledgerHasTx_addTransaction _ _ _ _ _ (by simp [isSessionEndTx])
      · intro _
        exact ⟨by simp [endSession, hsome, hc, he],
          by simp [endSession, hsome, hc, he]⟩
    · refine ⟨by simp [endSession, hsome, hc, he], ?_, ?_, ?_⟩
      · simp only [endSession, hsome, hc, he]
        exact dictLookup_dictErase_self _ _ hnd
      · simp only [endSession, hsome, hc, he]
        exact ledgerHasTx_addTransaction _ _ _ _ _ (by simp [isSessionEndTx])
      · intro hdis
        rcases hdis with h | h <;> exact absurd h (by simp)

/-- A concrete protocol environment for closed statements. -/
def sampleEnv : ProtoEnv :=
  { blockHash := constHash
    sigHash := sampleHash
    encAuthReq := fun _ => []
    encCred := fun _ => []
    credIdOf := fun _ => "cid" }

/-- A concrete EV holding a verifiable credential. -/
def sampleEV : EV :=
  { id := "ev1", public_key := 1, private_key := ⟨[0], 0⟩,
    certificate := none, battery_level := 100, charging_status := "idle",
    verifiable_credential :=
      some ⟨⟨"ev1", "en1", 0, 86400, "cross-domain-auth"⟩, 7⟩ }

/-- A concrete charging station. -/
def sampleCS : CS :=
  { id := "cs1", public_key := 2, private_key := ⟨[1], 0⟩,
    certificate := none, available_power := 50, connected_evs := [],
    active_charging_sessions := [] }

/-- A concrete edge node. -/
def sampleEN : EN :=
  { id := "en1", public_key := 3, private_key := ⟨[2], 0⟩,
    certificate := none, connected_charging_stations := [],
    connection_logs := [] }

/-- A concrete protocol state with one EV, one CS and one EN. -/
def sampleProtoState : ProtoState :=
  { evs := [("ev1", sampleEV)]
    charging_stations := [("cs1", sampleCS)]
    edge_nodes := [("en1", sampleEN)]
    blockchain := initialChain
    active_sessions := [] }

/-- C5 witnessed: with the concrete state, the named edge node and a drawn
score of 1 (> 0.8), the call is rejected, the failure transaction is on the
ledger, and no session was created. -/
theorem c5_cross_domain_rejects_high_score_witness :
    (crossDomainAuthentication sampleEnv sampleProtoState "ev1" "cs1"
        (some "en1") 1 "sid" 0).2
        = AuthOutcome.failure "Authentication rejected due to anomalous behavior"
    ∧ (crossDomainAuthentication sampleEnv sampleProtoState "ev1" "cs1"
        (some "en1") 1 "sid" 0).1.active_sessions
        = sampleProtoState.active_sessions
    ∧ ledgerHasTx (crossDomainAuthentication sampleEnv sampleProtoState "ev1"
        "cs1" (some "en1") 1 "sid" 0).1.blockchain
        (isAnomalyFailureTx "ev1" "cs1" "en1" 1) = true :=
  c5_cross_domain_rejects_high_score sampleEnv sampleProtoState "ev1" "cs1"
    "en1" (some "en1") 1 "sid" 0 sampleEV rfl (by simp [sampleProtoState, dictLookup])
    (Or.inl ⟨rfl, by simp [sampleProtoState, dictLookup]⟩) (by norm_num)

/-- A concrete session whose charging station `cs9` is not registered. -/
def sampleSession : SessionInfo :=
  { ev_id := "ev1", cs_id := "cs9", created_at := 0,
    stype := "cross_domain", en_id := some "en1" }

/-- A concrete protocol state holding that session. -/
def sampleSessionState : ProtoState :=
  { evs := [("ev1", sampleEV)]
    charging_stations := []
    edge_nodes := []
    blockchain := initialChain
    active_sessions := [("sid1", sampleSession)] }

/-- C10 witnessed: ending the session whose CS is unregistered succeeds,
removes it, logs the `session_end` transaction with duration 5, and leaves
the charging-station dict untouched; ending an unknown session id fails. -/
theorem c10_end_session_witness :
    (endSession sampleEnv sampleSessionState "sid1" 5).2
        = (true, "Session ended successfully")
    ∧ dictLookup (endSession sampleEnv sampleSessionState "sid1"
        5).1.active_sessions "sid1" = none
    ∧ ledgerHasTx (endSession sampleEnv sampleSessionState "sid1"
        5).1.blockchain
        (isSessionEndTx "sid1" sampleSession.ev_id sampleSession.cs_id
          (5 - sampleSession.created_at)) = true
    ∧ (endSession sampleEnv sampleSessionState "sid1" 5).1.charging_stations
        = sampleSessionState.charging_stations
    ∧ endSession sampleEnv sampleSessionState "nope" 5
        = (sampleSessionState, (false, "Session not found")) := by
  have hnd : (dictKeys sampleSessionState.active_sessions).Nodup := by
    simp [sampleSessionState, dictKeys]
  have h := (c10_end_session sampleEnv sampleSessionState "sid1" 5 hnd).2
    sampleSession (by simp [sampleSessionState, dictLookup])
  refine ⟨h.1, h.2.1, h.2.2.1, ?_, ?_⟩
  · exact (h.2.2.2 (Or.inl (by simp [sampleSessionState, dictLookup]))).1
  · exact (c10_end_session sampleEnv sampleSessionState "nope" 5 hnd).1
      (by simp [sampleSessionState, dictLookup, sampleSession])
